import Mathlib

/- Verification development for the trail-network routing engine
(`RouteManager` in the cycleways repository).  All geometry is carried
out in exact rational arithmetic.  The source computes point-to-point
distances with a floating-point haversine formula (`_getDistance`);
since transcendental floating-point arithmetic has no exact shallow
embedding, the whole development is parameterised by an arbitrary
metric `dist : Point → Point → ℚ`, and every structural theorem holds
for every such metric.  Concrete evaluations instantiate `dist` with
the computable metric `testDist` defined below.  Everything else
(projection arithmetic, thresholds, graph construction, Dijkstra,
ordering, continuity) is translated directly from the source. -/

set_option maxRecDepth 100000

/-- Plain latitude/longitude pair, the `{lat, lng}` objects of the source. -/
structure Point where
  lat : ℚ
  lng : ℚ
deriving DecidableEq, Inhabited, Repr

/-- A polyline vertex as stored by `load`: `{lat, lng, elevation}`.  After
`load` the elevation is always present (`coord[2] || 0`), so the synthetic
`200 + sin(...)∗100 + cos(...)∗50` fallback of `_smoothElevations` is dead
code for loaded data and elevations are modelled as always present. -/
structure Coord where
  lat : ℚ
  lng : ℚ
  elevation : ℚ
deriving DecidableEq, Inhabited, Repr

def Coord.toPoint (c : Coord) : Point := ⟨c.lat, c.lng⟩

/-- A stored route waypoint: coordinates, the time/random id assigned by
`addPoint`/`restoreFromPoints` (absent when a kept original point had
none), and the snapped segment name when known. -/
structure Waypoint where
  lat : ℚ
  lng : ℚ
  id : Option ℚ
  segmentName : Option String
deriving DecidableEq, Inhabited, Repr

/-- An externally supplied point (inputs of `addPoint` /
`recalculateRoute` / `restoreFromPoints`): any coordinate field may be
absent, as in the untyped source. -/
structure RawPoint where
  lat : Option ℚ
  lng : Option ℚ
  id : Option ℚ
  segmentName : Option String
deriving DecidableEq, Inhabited, Repr

/-- A named segment.  The opaque `properties` metadata bag is not
modelled: the routing engine never reads it. -/
structure Segment where
  name : String
  coordinates : List Coord
deriving DecidableEq, Inhabited, Repr

/-- One geojson feature, reduced to the fields `load` reads: the
geometry type, the optional `properties.name`, and the coordinate
triples `[lng, lat, elevation?]`. -/
structure Feature where
  geometryType : Option String
  name : Option String
  coords : List (ℚ × ℚ × Option ℚ)
deriving DecidableEq, Inhabited, Repr

/-- Endpoint-graph node: the source's string key `"<segment>|S"` /
`"<segment>|E"`, modelled structurally as the pair (segment name,
isEnd); `false` is `S`, `true` is `E`. -/
abbrev Node := String × Bool

/-- Endpoint-graph edge `{to, weight, segment?}`.  The `segment` tag is
attached to traverse edges by `_buildEndpointGraph` but never read. -/
structure Edge where
  target : Node
  weight : ℚ
  segment : Option String
deriving DecidableEq, Inhabited, Repr

/-- Directional elevation metrics (rounded, as stored by
`_preCalculateMetrics`). -/
structure DirMetrics where
  elevationGain : ℤ
  elevationLoss : ℤ
deriving DecidableEq, Inhabited, Repr

/-- Per-segment pre-computed metrics.  The display-only string field
`distanceKm` (`toFixed(1)`) is not modelled. -/
structure Metrics where
  distance : ℚ
  forward : DirMetrics
  reverse : DirMetrics
  startPoint : Option Coord
  endPoint : Option Coord
  smoothedCoords : List Coord
deriving DecidableEq, Inhabited, Repr

/-- The immutable data built once by `load`: the four map fields of
`RouteManager` that are read-only after loading. -/
structure NetworkData where
  segments : List (String × Segment)
  segmentMetrics : List (String × Metrics)
  adjacencyMap : List (String × List String)
  endpointGraph : List (Node × List Edge)
deriving DecidableEq, Inhabited, Repr

/-- The full mutable state of a `RouteManager` instance: the loaded
network plus the current waypoints and selection. -/
structure RMState where
  net : NetworkData
  routePoints : List Waypoint
  selectedSegments : List String
deriving DecidableEq, Inhabited, Repr

def RMState.empty : RMState :=
  ⟨⟨[], [], [], []⟩, [], []⟩

/- ## Association-list maps (JS `Map` with insertion order) -/

/-- Lookup in an insertion-ordered association list (`Map.get`). -/
def alookup {β : Type} : List (String × β) → String → Option β
  | [], _ => none
  | (a, b) :: rest, k => if a = k then some b else alookup rest k

/-- `Map.set`: update in place when the key exists, append otherwise. -/
def aset {β : Type} : List (String × β) → String → β → List (String × β)
  | [], k, v => [(k, v)]
  | (a, b) :: rest, k, v =>
    if a = k then (a, v) :: rest else (a, b) :: aset rest k v

/-- Lookup keyed by endpoint-graph nodes. -/
def nlookup {β : Type} : List (Node × β) → Node → Option β
  | [], _ => none
  | (a, b) :: rest, k => if a = k then some b else nlookup rest k

/-- `Map.set` keyed by endpoint-graph nodes. -/
def nset {β : Type} : List (Node × β) → Node → β → List (Node × β)
  | [], k, v => [(k, v)]
  | (a, b) :: rest, k, v =>
    if a = k then (a, v) :: rest else (a, b) :: nset rest k v

/-- Push a value onto the list stored at `k` (`map.get(k).push(v)`);
the keys are always pre-initialised at the call sites. -/
def apush {β : Type} (m : List (String × List β)) (k : String) (v : β) :
    List (String × List β) :=
  match alookup m k with
  | none => m
  | some l => aset m k (l ++ [v])

/-- Push an edge onto a node's adjacency list. -/
def npush {β : Type} (m : List (Node × List β)) (k : Node) (v : β) :
    List (Node × List β) :=
  match nlookup m k with
  | none => m
  | some l => nset m k (l ++ [v])

/- ## Extended rationals: JS numbers with `Infinity` (`none` = ∞) -/

/-- `a <= b` on `ℚ ∪ {∞}` with JS semantics (`Infinity <= Infinity` is true). -/
def qinfLe : Option ℚ → Option ℚ → Bool
  | some a, some b => decide (a ≤ b)
  | some _, none => true
  | none, some _ => false
  | none, none => true

/-- `a < b` on `ℚ ∪ {∞}` with JS semantics (`Infinity < Infinity` is false). -/
def qinfLt : Option ℚ → Option ℚ → Bool
  | some a, some b => decide (a < b)
  | some _, none => true
  | none, _ => false

/-- `Math.min` on `ℚ ∪ {∞}`. -/
def qinfMin : Option ℚ → Option ℚ → Option ℚ
  | some a, some b => some (min a b)
  | some a, none => some a
  | none, b => b

/-- Addition on `ℚ ∪ {∞}`. -/
def qinfAdd : Option ℚ → Option ℚ → Option ℚ
  | some a, some b => some (a + b)
  | _, _ => none

/-- `_getDistance` with its null/undefined guard: an invalid argument
yields `Infinity` (`none`). -/
def distOpt (dist : Point → Point → ℚ) : Option Point → Option Point → Option ℚ
  | some a, some b => some (dist a b)
  | _, _ => none

/- ## Small numeric helpers -/

/-- Absolute value on ℚ, written out so the kernel evaluates it directly. -/
def qabs (q : ℚ) : ℚ := if q < 0 then -q else q

/-- JS `Math.round`: half-up rounding. -/
def jsRound (q : ℚ) : ℤ := Rat.floor (q + 1 / 2)

/-- Concrete metric used for all concrete evaluations: 100 times the
taxicab distance on (lat, lng), so one unit of longitude is 100
"meters".  It replaces the floating-point haversine formula, which has
no exact embedding; all universally quantified theorems hold for
every metric. -/
def testDist (p q : Point) : ℚ :=
  100 * (qabs (p.lat - q.lat) + qabs (p.lng - q.lng))

/- ## Point snapping (`_getClosestPointOnLineSegment`, `_snapToNearestSegment`) -/

/-- Consecutive coordinate pairs `(coords[i], coords[i+1])`. -/
def consecutivePairs {α : Type} : List α → List (α × α)
  | a :: b :: rest => (a, b) :: consecutivePairs (b :: rest)
  | _ => []

/-- `_getClosestPointOnLineSegment`: clamped projection of `p` onto the
pair `(ls, le)`, computed on raw lat/lng coordinates exactly as in the
source. -/
def closestPointOnLineSegment (p : Point) (ls le : Coord) : Point :=
  let a := p.lng - ls.lng
  let b := p.lat - ls.lat
  let c := le.lng - ls.lng
  let d := le.lat - ls.lat
  let dot := a * c + b * d
  let lenSq := c * c + d * d
  let param : ℚ := if lenSq ≠ 0 then dot / lenSq else -1
  if param < 0 then ⟨ls.lat, ls.lng⟩
  else if param > 1 then ⟨le.lat, le.lng⟩
  else ⟨ls.lat + param * d, ls.lng + param * c⟩

/-- One snapping candidate: segment name, clamped projection, and its
distance from the query point.  `_snapToNearestSegment` scans the
candidates of all segments in map order. -/
abbrev SnapCand := String × Point × ℚ

/-- All candidates in the source's nested loop order (segments in map
order, consecutive pairs left to right). -/
def snapCandidates (dist : Point → Point → ℚ) (segs : List (String × Segment))
    (p : Point) : List SnapCand :=
  segs.flatMap fun ns =>
    (consecutivePairs ns.2.coordinates).map fun pr =>
      let q := closestPointOnLineSegment p pr.1 pr.2
      (ns.1, q, dist p q)

/-- Is the new candidate distance strictly below the running minimum
(`Infinity` when no candidate has been kept yet)? -/
def snapBetter (st : Option SnapCand) (d : ℚ) : Bool :=
  match st with
  | none => true
  | some s => decide (d < s.2.2)

/-- Loop body of `_snapToNearestSegment`: keep the candidate when
`distance < threshold && distance < minDistance` (threshold 100 m,
both comparisons strict). -/
def snapStep (st : Option SnapCand) (c : SnapCand) : Option SnapCand :=
  if c.2.2 < 100 ∧ snapBetter st c.2.2 = true then some c else st

/-- `_snapToNearestSegment`: the globally best candidate, as
`(projected point, segment name)`, or `none` when no candidate is
strictly within 100 m. -/
def snapToNearestSegment (dist : Point → Point → ℚ)
    (segs : List (String × Segment)) (p : Point) : Option (Point × String) :=
  ((snapCandidates dist segs p).foldl snapStep none).map fun c => (c.2.1, c.1)

/-- `findClosestSegment`: name of the snapped segment, or `none`. -/
def findClosestSegment (dist : Point → Point → ℚ)
    (segs : List (String × Segment)) (p : Point) : Option String :=
  (snapToNearestSegment dist segs p).map fun r => r.2

/- ## Elevation smoothing (`_distanceWindowSmoothing`, `_smoothElevations`) -/

/-- Index into a coordinate list with a default (in-range at all call
sites of the smoothing loops). -/
def getCoordD (l : List Coord) (i : ℕ) : Coord := l.getD i default

/-- First inner `while` of `_distanceWindowSmoothing`: advance `start`
while `start + 1 < i` and the window is exceeded, subtracting the
accumulated values.  The fuel bounds the iteration count (`start < i`). -/
def advanceStart (dist : Point → Point → ℚ) (pts : List Coord) (window : ℚ)
    (accumF : ℕ → ℚ) (i : ℕ) : ℕ → ℕ × ℚ → ℕ × ℚ
  | 0, sa => sa
  | fuel + 1, (s, acc) =>
    if s + 1 < i ∧ dist (getCoordD pts s).toPoint (getCoordD pts i).toPoint > window then
      advanceStart dist pts window accumF i fuel (s + 1, acc - accumF s)
    else (s, acc)

/-- Second inner `while`: advance `end` while within the window,
accumulating.  The fuel bounds the iteration count (`end ≤ length`). -/
def advanceEnd (dist : Point → Point → ℚ) (pts : List Coord) (window : ℚ)
    (accumF : ℕ → ℚ) (i : ℕ) : ℕ → ℕ × ℚ → ℕ × ℚ
  | 0, ea => ea
  | fuel + 1, (e, acc) =>
    if e < pts.length ∧ qinfLe (some (dist (getCoordD pts i).toPoint (getCoordD pts e).toPoint)) (some window) = true then
      advanceEnd dist pts window accumF i fuel (e + 1, acc + accumF e)
    else (e, acc)

/-- One iteration of the outer `for` loop of `_distanceWindowSmoothing`:
state is `(start, end, accumulated, result)`. -/
def dwsStep (dist : Point → Point → ℚ) (pts : List Coord) (window : ℚ)
    (accumF : ℕ → ℚ) (compute : ℚ → ℤ → ℤ → ℚ)
    (st : ℕ × ℕ × ℚ × List ℚ) (i : ℕ) : ℕ × ℕ × ℚ × List ℚ :=
  let s1 := advanceStart dist pts window accumF i i (st.1, st.2.2.1)
  let e1 := advanceEnd dist pts window accumF i pts.length (st.2.1, s1.2)
  (s1.1, e1.1, e1.2, st.2.2.2 ++ [compute e1.2 (s1.1 : ℤ) ((e1.1 : ℤ) - 1)])

/-- `_distanceWindowSmoothing`: sliding distance-window pass producing
one smoothed value per input index (`compute accumulated start (end-1)`). -/
def distanceWindowSmoothing (dist : Point → Point → ℚ) (pts : List Coord)
    (window : ℚ) (accumF : ℕ → ℚ) (compute : ℚ → ℤ → ℤ → ℚ) : List ℚ :=
  ((List.range pts.length).foldl (dwsStep dist pts window accumF compute)
    (0, 0, 0, [])).2.2.2

/-- `_smoothElevations`: distance-windowed moving average of the
elevations (window membership by along-path distance), with the first
and last elevations restored unsmoothed. -/
def smoothElevations (dist : Point → Point → ℚ) (coords : List Coord)
    (window : ℚ) : List Coord :=
  if coords.length = 0 then coords
  else
    let sm := distanceWindowSmoothing dist coords window
      (fun i => (getCoordD coords i).elevation)
      (fun acc s e => acc / (((e - s + 1 : ℤ) : ℚ)))
    let sm := sm.set 0 (getCoordD coords 0).elevation
    let sm := sm.set (coords.length - 1) (getCoordD coords (coords.length - 1)).elevation
    (List.range coords.length).map fun i =>
      ⟨(getCoordD coords i).lat, (getCoordD coords i).lng, sm.getD i 0⟩

/- ## Per-segment metrics (`_preCalculateMetrics`) -/

/-- Polyline length: sum of pairwise distances. -/
def segDistance (dist : Point → Point → ℚ) (coords : List Coord) : ℚ :=
  (consecutivePairs coords).foldl (fun acc pr => acc + dist pr.1.toPoint pr.2.toPoint) 0

/-- Forward elevation gain and loss over the smoothed coordinates:
only deltas whose magnitude is at least 1 m are counted. -/
def elevGainLoss (sm : List Coord) : ℚ × ℚ :=
  (consecutivePairs sm).foldl
    (fun acc pr =>
      let change := pr.2.elevation - pr.1.elevation
      if qabs change ≥ 1 then
        if change > 0 then (acc.1 + change, acc.2) else (acc.1, acc.2 + qabs change)
      else acc)
    (0, 0)

/-- The metrics record computed by `_preCalculateMetrics` for one
segment. -/
def computeSegmentMetrics (dist : Point → Point → ℚ) (seg : Segment) : Metrics :=
  let sm := smoothElevations dist seg.coordinates 100
  let gl := elevGainLoss sm
  { distance := segDistance dist seg.coordinates
    forward := ⟨jsRound gl.1, jsRound gl.2⟩
    reverse := ⟨jsRound gl.2, jsRound gl.1⟩
    startPoint := seg.coordinates.head?
    endPoint := seg.coordinates.getLast?
    smoothedCoords := sm }

/-- `_preCalculateMetrics`: metrics map for every loaded segment, in
map order. -/
def buildMetrics (dist : Point → Point → ℚ) (segs : List (String × Segment)) :
    List (String × Metrics) :=
  segs.foldl (fun m ns => aset m ns.1 (computeSegmentMetrics dist ns.2)) []

/- ## Connectivity graphs (`_buildAdjacencyMap`, `_buildEndpointGraph`) -/

/-- `_areSegmentsConnected`: some endpoint of one segment lies within
`threshold` of some endpoint of the other. -/
def areSegmentsConnected (dist : Point → Point → ℚ) (s1 s2 : Segment)
    (threshold : ℚ) : Bool :=
  if s1.coordinates.length = 0 ∨ s2.coordinates.length = 0 then false
  else
    let e1 : List (Option Point) :=
      [s1.coordinates.head?.map Coord.toPoint, s1.coordinates.getLast?.map Coord.toPoint]
    let e2 : List (Option Point) :=
      [s2.coordinates.head?.map Coord.toPoint, s2.coordinates.getLast?.map Coord.toPoint]
    e1.any fun p1 => e2.any fun p2 => qinfLe (distOpt dist p1 p2) (some threshold)

/-- Iterate a fold over all ordered pairs `i < j` of a list, in the
source's nested-loop order. -/
def forPairs {α σ : Type} (f : α → α → σ → σ) : List α → σ → σ
  | [], s => s
  | x :: rest, s => forPairs f rest (rest.foldl (fun s' y => f x y s') s)

/-- `_buildAdjacencyMap`: initialise every segment with an empty list,
then connect every pair within the 50 m connection threshold, both
directions. -/
def buildAdjacencyMap (dist : Point → Point → ℚ)
    (segs : List (String × Segment)) : List (String × List String) :=
  let init : List (String × List String) := segs.map fun ns => (ns.1, [])
  forPairs
    (fun a b m =>
      if areSegmentsConnected dist a.2 b.2 50 = true then
        apush (apush m a.1 b.1) b.1 a.1
      else m)
    segs init

/-- The four endpoint-to-endpoint combinations tested by
`_buildEndpointGraph` for a pair of segments. -/
def endpointCombos (s1 : Segment) (n1 : String) (s2 : Segment) (n2 : String) :
    List (Node × Option Point × Node × Option Point) :=
  let st1 := s1.coordinates.head?.map Coord.toPoint
  let en1 := s1.coordinates.getLast?.map Coord.toPoint
  let st2 := s2.coordinates.head?.map Coord.toPoint
  let en2 := s2.coordinates.getLast?.map Coord.toPoint
  [((n1, false), st1, (n2, false), st2),
   ((n1, false), st1, (n2, true), en2),
   ((n1, true), en1, (n2, false), st2),
   ((n1, true), en1, (n2, true), en2)]

/-- `_buildEndpointGraph`: two nodes per segment joined by a traverse
edge weighted with the segment length, plus zero-weight junction edges
between endpoints of different segments within 50 m. -/
def buildEndpointGraph (dist : Point → Point → ℚ)
    (segs : List (String × Segment)) (metrics : List (String × Metrics)) :
    List (Node × List Edge) :=
  let withTraverse : List (Node × List Edge) :=
    segs.foldl
      (fun g ns =>
        let w := match alookup metrics ns.1 with
          | some m => m.distance
          | none => 0
        let g := if (nlookup g (ns.1, false)).isNone then nset g (ns.1, false) [] else g
        let g := if (nlookup g (ns.1, true)).isNone then nset g (ns.1, true) [] else g
        let g := npush g (ns.1, false) ⟨(ns.1, true), w, some ns.1⟩
        npush g (ns.1, true) ⟨(ns.1, false), w, some ns.1⟩)
      []
  forPairs
    (fun a b g =>
      (endpointCombos a.2 a.1 b.2 b.1).foldl
        (fun g' combo =>
          if qinfLe (distOpt dist combo.2.1 combo.2.2.2) (some 50) = true then
            npush (npush g' combo.1 ⟨combo.2.2.1, 0, none⟩) combo.2.2.1 ⟨combo.1, 0, none⟩
          else g')
        g)
    segs withTraverse

/- ## Loading (`load`) -/

/-- `load`: rebuild the network from geojson features.  The only
validation in the source is `!geoJsonData?.features`; a missing
features array (modelled as `none`) throws, anything else succeeds.
Route points and the selection are untouched by `load`. -/
def loadRM (dist : Point → Point → ℚ) (st : RMState)
    (geo : Option (List Feature)) : Except String RMState :=
  match geo with
  | none => Except.error "Invalid geojson data"
  | some features =>
    let segs : List (String × Segment) :=
      features.foldl
        (fun m f =>
          if f.geometryType ≠ some "LineString" then m
          else
            let name := match f.name with
              | some n => if n = "" then "Unnamed Route" else n
              | none => "Unnamed Route"
            let coords : List Coord := f.coords.map fun t => ⟨t.2.1, t.1, (t.2.2).getD 0⟩
            aset m name ⟨name, coords⟩)
        []
    let metrics := buildMetrics dist segs
    Except.ok
      { st with net :=
          { segments := segs
            segmentMetrics := metrics
            adjacencyMap := buildAdjacencyMap dist segs
            endpointGraph := buildEndpointGraph dist segs metrics } }

/-- Extract the state from a successful `loadRM` call. -/
def loadStateD (dist : Point → Point → ℚ) (st : RMState)
    (fs : List Feature) : RMState :=
  match loadRM dist st (some fs) with
  | Except.ok s => s
  | Except.error _ => st

/- ## Coordinate ordering (`_orientSegmentForConnection`,
`_getOrderedCoordinatesForSegments`) -/

/-- Index of the first minimum of the four distances
(`distances.indexOf(Math.min(...distances))`). -/
def idxOfMin4 (ds : List (Option ℚ)) : ℕ :=
  let m := ds.foldl qinfMin none
  ds.findIdx fun x => decide (x = m)

/-- `_orientSegmentForConnection`: orient a segment, possibly reversing
it.  For the first segment the four start/end combinations against the
next segment are compared; for later segments the end nearer the
running sequence's last point wins. -/
def orientSegmentForConnection (dist : Point → Point → ℚ) (coords : List Coord)
    (nextCoords : Option (List Coord)) (isFirst : Bool)
    (lastPoint : Option Coord) : List Coord :=
  match isFirst, nextCoords with
  | true, some nc =>
    let fs := coords.head?.map Coord.toPoint
    let fe := coords.getLast?.map Coord.toPoint
    let ns := nc.head?.map Coord.toPoint
    let ne := nc.getLast?.map Coord.toPoint
    let ds : List (Option ℚ) :=
      [distOpt dist fe ns, distOpt dist fe ne, distOpt dist fs ns, distOpt dist fs ne]
    let minIndex := idxOfMin4 ds
    if minIndex = 2 ∨ minIndex = 3 then coords.reverse else coords
  | _, _ =>
    match lastPoint with
    | some lp =>
      let dStart := distOpt dist (some lp.toPoint) (coords.head?.map Coord.toPoint)
      let dEnd := distOpt dist (some lp.toPoint) (coords.getLast?.map Coord.toPoint)
      if qinfLt dEnd dStart = true then coords.reverse else coords
    | none => coords

/-- Loop body of `_getOrderedCoordinatesForSegments` for `i > 0`:
orient the segment towards the running sequence's last point, then
append, dropping the duplicate first coordinate when the join distance
is within 50 m. -/
def appendOrientedSegment (dist : Point → Point → ℚ) (acc coords : List Coord) :
    List Coord :=
  let lastPoint := acc.getLast?
  let oriented := orientSegmentForConnection dist coords none false lastPoint
  let firstPoint := oriented.head?
  let cd := distOpt dist (lastPoint.map Coord.toPoint) (firstPoint.map Coord.toPoint)
  if qinfLe cd (some 50) = true then acc ++ oriented.drop 1 else acc ++ oriented

/-- `_getOrderedCoordinatesForSegments`: stitch the ordered segment
list into one oriented coordinate sequence; missing segments are
skipped. -/
def getOrderedCoordinatesForSegments (dist : Point → Point → ℚ)
    (segsMap : List (String × Segment)) (segs : List String) : List Coord :=
  match segs with
  | [] => []
  | s0 :: rest =>
    let acc0 : List Coord :=
      match alookup segsMap s0 with
      | none => []
      | some seg =>
        match rest with
        | [] => seg.coordinates
        | s1 :: _ =>
          match alookup segsMap s1 with
          | none => seg.coordinates
          | some nseg =>
            orientSegmentForConnection dist seg.coordinates
              (some nseg.coordinates) true none
    rest.foldl
      (fun acc sn =>
        match alookup segsMap sn with
        | none => acc
        | some seg => appendOrientedSegment dist acc seg.coordinates)
      acc0

/-- `_getCurrentRouteEndpoint`: the last coordinate of the stitched
route, when any. -/
def getCurrentRouteEndpoint (dist : Point → Point → ℚ) (net : NetworkData)
    (segs : List String) : Option Coord :=
  match segs with
  | [] => none
  | _ => (getOrderedCoordinatesForSegments dist net.segments segs).getLast?

/- ## Continuity checking (`checkSegmentsContinuity`) -/

/-- Result record `{isContinuous, brokenSegmentIndex}`. -/
structure ContinuityResult where
  isContinuous : Bool
  brokenSegmentIndex : ℤ
deriving DecidableEq, Inhabited, Repr

/-- JS array indexing with a signed index: out-of-range gives
`undefined` (`none`). -/
def getCoordI (l : List Coord) (i : ℤ) : Option Coord :=
  if 0 ≤ i ∧ i < (l.length : ℤ) then l.get? i.toNat else none

/-- The junction-walking loop of `checkSegmentsContinuity`, carrying
the running coordinate index and the junction counter `i`. -/
def continuityLoop (dist : Point → Point → ℚ)
    (segsMap : List (String × Segment)) (oc : List Coord) :
    List String → ℤ → ℤ → ContinuityResult
  | a :: b :: rest, coordIndex, i =>
    match alookup segsMap a, alookup segsMap b with
    | some ca, some _ =>
      let len : ℤ := ca.coordinates.length
      let endIdx := coordIndex + len - 1
      if endIdx ≥ (oc.length : ℤ) - 1 then ⟨false, i⟩
      else
        let ce := (getCoordI oc endIdx).map Coord.toPoint
        let ns := (getCoordI oc (endIdx + 1)).map Coord.toPoint
        let d := distOpt dist ce ns
        if qinfLt (some 100) d = true then ⟨false, i⟩
        else
          let coordIndex' := coordIndex + len - (if qinfLe d (some 50) = true then 1 else 0)
          continuityLoop dist segsMap oc (b :: rest) coordIndex' (i + 1)
    | _, _ => continuityLoop dist segsMap oc (b :: rest) coordIndex (i + 1)
  | _, _, _ => ⟨true, -1⟩

/-- `checkSegmentsContinuity`: at most one segment is always
continuous; otherwise walk the stitched coordinates and report the
first junction whose measured distance exceeds the 100 m tolerance. -/
def checkSegmentsContinuity (dist : Point → Point → ℚ) (net : NetworkData)
    (segs : List String) : ContinuityResult :=
  if segs.length ≤ 1 then ⟨true, -1⟩
  else
    let oc := getOrderedCoordinatesForSegments dist net.segments segs
    if oc.length = 0 then ⟨true, -1⟩
    else continuityLoop dist net.segments oc segs 0 0

/- ## Dijkstra over the endpoint graph (`_dijkstraPath`) -/

/-- Lookup with default in the distance map (every node of the graph is
pre-initialised, so the default is never hit on real inputs). -/
def dlookupD (m : List (Node × Option ℚ)) (k : Node) : Option ℚ :=
  (nlookup m k).getD none

/-- Pick the unvisited node with the strictly smallest tentative
distance, scanning nodes in order (`u = null` when all remaining are at
`Infinity`). -/
def selectMinNode (d : List (Node × Option ℚ)) (visited : List Node)
    (nodes : List Node) : Option Node :=
  (nodes.foldl
    (fun best n =>
      if n ∉ visited ∧ qinfLt (dlookupD d n) best.2 = true then (some n, dlookupD d n)
      else best)
    ((none : Option Node), (none : Option ℚ))).1

/-- Relax one edge out of `u` (skipping visited targets). -/
def relaxStep (u : Node) (du : Option ℚ) (visited : List Node)
    (st : List (Node × Option ℚ) × List (Node × Node)) (e : Edge) :
    List (Node × Option ℚ) × List (Node × Node) :=
  if e.target ∈ visited then st
  else
    let alt := qinfAdd du (some e.weight)
    if qinfLt alt (dlookupD st.1 e.target) = true then
      (nset st.1 e.target alt, nset st.2 e.target u)
    else st

/-- The main Dijkstra loop; fuel is the node count, which bounds the
number of iterations because every non-breaking iteration adds a fresh
node to `visited`. -/
def dijkstraLoop (g : List (Node × List Edge)) (nodes : List Node) (dst : Node) :
    ℕ → List (Node × Option ℚ) → List (Node × Node) → List Node →
    List (Node × Option ℚ) × List (Node × Node)
  | 0, d, p, _ => (d, p)
  | fuel + 1, d, p, v =>
    if v.length < nodes.length then
      match selectMinNode d v nodes with
      | none => (d, p)
      | some u =>
        if u = dst then (d, p)
        else
          let edges := (nlookup g u).getD []
          let dp := edges.foldl (relaxStep u (dlookupD d u) v) (d, p)
          dijkstraLoop g nodes dst fuel dp.1 dp.2 (v ++ [u])
    else (d, p)

/-- Predecessor-chain walk of the path reconstruction; the chain in a
Dijkstra predecessor map is acyclic, so `prev.length + 1` fuel always
suffices. -/
def reconstructPath (prev : List (Node × Node)) :
    ℕ → Node → List Node → List Node
  | 0, _, acc => acc
  | fuel + 1, curr, acc =>
    match nlookup prev curr with
    | none => acc
    | some p => reconstructPath prev fuel p (p :: acc)

/-- `_dijkstraPath`: classic heapless Dijkstra returning the node path
from `src` to `dst`, or `[]` when either node is unknown or `dst` is
unreached. -/
def dijkstraPath (g : List (Node × List Edge)) (src dst : Node) : List Node :=
  let nodes := g.map fun nb => nb.1
  if src ∉ nodes ∨ dst ∉ nodes then []
  else
    let d0 := nset (nodes.map fun n => (n, (none : Option ℚ))) src (some 0)
    let dp := dijkstraLoop g nodes dst nodes.length d0 [] []
    if nlookup dp.2 dst = none ∧ src ≠ dst then []
    else reconstructPath dp.2 (dp.2.length + 1) dst [dst]

/-- Pairwise summation inside `_pathWeight`: a missing edge contributes
`Infinity`. -/
def pathWeightGo (g : List (Node × List Edge)) : List Node → Option ℚ
  | a :: b :: rest =>
    let e := ((nlookup g a).getD []).find? fun x => decide (x.target = b)
    match e with
    | some ed => qinfAdd (some ed.weight) (pathWeightGo g (b :: rest))
    | none => none
  | _ => some 0

/-- `_pathWeight`: total weight of a node path; `Infinity` for paths
shorter than two nodes. -/
def pathWeight (g : List (Node × List Edge)) (np : List Node) : Option ℚ :=
  if np.length < 2 then none else pathWeightGo g np

/-- Inner loop of `_nodesPathToSegments`: emit a segment each time the
path crosses between the two nodes of one segment, skipping a
consecutive duplicate. -/
def nptsLoop : List Node → List String → List String
  | a :: b :: rest, acc =>
    let acc' :=
      if a.1 = b.1 ∧ a.2 ≠ b.2 then
        if acc.getLast? = some a.1 then acc else acc ++ [a.1]
      else acc
    nptsLoop (b :: rest) acc'
  | _, acc => acc

/-- `_nodesPathToSegments`. -/
def nodesPathToSegments (np : List Node) : List String :=
  if np.length < 2 then [] else nptsLoop np []

/- ## Shortest segment paths (`_findShortestSegmentPath` and friends) -/

/-- `_getEndpointCoords`: `false` is the `"S"` end (first coordinate),
`true` the `"E"` end (last coordinate); `none` for a missing segment or
empty polyline. -/
def getEndpointCoords (net : NetworkData) (segName : String) (key : Bool) :
    Option Coord :=
  match alookup net.segments segName with
  | none => none
  | some seg => if key then seg.coordinates.getLast? else seg.coordinates.head?

/-- `_nearestEndpointKeyToPoint`: the endpoint of the segment nearer to
`p` (`S` on ties, per `dS <= dE`). -/
def nearestEndpointKeyToPoint (dist : Point → Point → ℚ) (net : NetworkData)
    (segName : String) (p : Point) : Bool :=
  let dS := distOpt dist (some p) ((getEndpointCoords net segName false).map Coord.toPoint)
  let dE := distOpt dist (some p) ((getEndpointCoords net segName true).map Coord.toPoint)
  if qinfLe dS dE = true then false else true

/-- Start/target node choice of `_findShortestSegmentPath`: whichever
endpoint node of the segment is nearer to the reference point
(`dS <= dE` picks `S`). -/
def chooseEndpointNode (dist : Point → Point → ℚ) (net : NetworkData)
    (segName : String) (ref : Point) : Node :=
  (segName, nearestEndpointKeyToPoint dist net segName ref)

/-- `_findShortestSegmentPath`: endpoint-graph Dijkstra between two
segments, with the degenerate two-element fallback
`[startSegment, endSegment]` when the chosen nodes are disconnected.
`opts` is the `{routeEndpointPoint?, targetEntryPoint?}` options bag. -/
def findShortestSegmentPath (dist : Point → Point → ℚ) (net : NetworkData)
    (startName endName : String) (opts : Option Point × Option Point) :
    List String :=
  if startName = endName then [startName]
  else
    let startNode : Node :=
      match opts.1 with
      | some rp => chooseEndpointNode dist net startName rp
      | none => (startName, true)
    match opts.2 with
    | some tp =>
      let targetNode := chooseEndpointNode dist net endName tp
      let nodePath := dijkstraPath net.endpointGraph startNode targetNode
      if nodePath = [] then [startName, endName] else nodesPathToSegments nodePath
    | none =>
      let pathS := dijkstraPath net.endpointGraph startNode (endName, false)
      let pathE := dijkstraPath net.endpointGraph startNode (endName, true)
      if qinfLe (pathWeight net.endpointGraph pathS) (pathWeight net.endpointGraph pathE) = true then
        nodesPathToSegments pathS
      else nodesPathToSegments pathE

/-- `_findPathToSegmentEntryPoint`: endpoint-aware shortest path from
the route's current endpoint into the target segment, appending the
target segment when the path does not already end with it. -/
def findPathToSegmentEntryPoint (dist : Point → Point → ℚ) (net : NetworkData)
    (startName targetName : String) (targetEntry : Option Point)
    (routeEndpoint : Option Point) : List String :=
  match alookup net.segments startName, alookup net.segments targetName with
  | some sd, some _ =>
    let rp : Option Point :=
      match routeEndpoint with
      | some r => some r
      | none => sd.coordinates.getLast?.map Coord.toPoint
    let path := findShortestSegmentPath dist net startName targetName (rp, targetEntry)
    if path.length > 0 ∧ path.getLast? ≠ some targetName then path ++ [targetName]
    else path
  | _, _ => []

/-- `_findSegmentForPoint`: trust a truthy `segmentName` on the point,
otherwise snap. -/
def findSegmentForPoint (dist : Point → Point → ℚ) (net : NetworkData)
    (p : Waypoint) : Option String :=
  let snapped := (snapToNearestSegment dist net.segments ⟨p.lat, p.lng⟩).map fun r => r.2
  match p.segmentName with
  | some n => if n = "" then snapped else some n
  | none => snapped

/-- `findPathBetweenPoints` / `_findPathBetweenPoints`: snap both
points, pick the nearer endpoint of each snapped segment, and run the
endpoint-graph search. -/
def findPathBetweenPoints (dist : Point → Point → ℚ) (net : NetworkData)
    (a b : Waypoint) : List String :=
  match findSegmentForPoint dist net a, findSegmentForPoint dist net b with
  | some s, some t =>
    if s = t then [s]
    else
      let sKey := nearestEndpointKeyToPoint dist net s ⟨a.lat, a.lng⟩
      let rp := getEndpointCoords net s sKey
      let tKey := nearestEndpointKeyToPoint dist net t ⟨b.lat, b.lng⟩
      let tp := getEndpointCoords net t tKey
      findShortestSegmentPath dist net s t (rp.map Coord.toPoint, tp.map Coord.toPoint)
  | _, _ => []

/- ## Incremental route extension (`_findRouteExtensionToPoint`,
`_findOptimalRouteThroughPoints`, `_recalculateRoute`) -/

/-- `_findRouteExtensionToPoint`: the minimal segment sequence
appended to reach the new waypoint (same-segment no-op, direct
adjacency, backtrack-and-hook, or endpoint-graph shortest path with
the second-waypoint direction exception). -/
def findRouteExtensionToPoint (dist : Point → Point → ℚ) (net : NetworkData)
    (targetPoint : Waypoint) (currentRouteSegments : List String) : List String :=
  match targetPoint.segmentName with
  | none => []
  | some closest =>
    match currentRouteSegments.getLast? with
    | none => [closest]
    | some lastSeg =>
      if lastSeg = closest then []
      else
        match getCurrentRouteEndpoint dist net currentRouteSegments with
        | none => [closest]
        | some routeEndpoint =>
          let conns := (alookup net.adjacencyMap lastSeg).getD []
          if closest ∈ conns then
            if currentRouteSegments.length = 1 then [closest]
            else
              match alookup net.segments closest with
              | none => [closest]
              | some targetSeg =>
                let dS := distOpt dist (some routeEndpoint.toPoint)
                  (targetSeg.coordinates.head?.map Coord.toPoint)
                let dE := distOpt dist (some routeEndpoint.toPoint)
                  (targetSeg.coordinates.getLast?.map Coord.toPoint)
                if qinfLe (qinfMin dS dE) (some 50) = true then [closest]
                else [lastSeg, closest]
          else
            match alookup net.segments closest with
            | none => [closest]
            | some _ =>
              let entry : Point := ⟨targetPoint.lat, targetPoint.lng⟩
              let path := findPathToSegmentEntryPoint dist net lastSeg closest
                (some entry) (some routeEndpoint.toPoint)
              if path = [] then [closest]
              else if currentRouteSegments.length = 1 ∧
                  path.head? = currentRouteSegments.head? then path.drop 1
              else path

/-- The extension loop of `_findOptimalRouteThroughPoints` over the
points after the first. -/
def extendLoop (dist : Point → Point → ℚ) (net : NetworkData) :
    List Waypoint → List String → List String
  | [], acc => acc
  | p :: rest, acc =>
    extendLoop dist net rest (acc ++ findRouteExtensionToPoint dist net p acc)

/-- `_findOptimalRouteThroughPoints`: seed the route with the first
point's segment, then extend point by point.  (The validity filter of
the source is the identity here: stored waypoints always carry
coordinates.) -/
def findOptimalRouteThroughPoints (dist : Point → Point → ℚ)
    (net : NetworkData) (points : List Waypoint) : List String :=
  match points with
  | [] => []
  | [p] =>
    match p.segmentName with
    | some s => [s]
    | none => []
  | p :: rest =>
    extendLoop dist net rest
      (match p.segmentName with
       | some s => [s]
       | none => [])

/-- `_recalculateRoute`: refilter the stored waypoints (the identity on
typed waypoints) and rebuild the selection from them. -/
def recalcInternal (dist : Point → Point → ℚ) (st : RMState) : RMState :=
  let pts := st.routePoints.filter fun _ => true
  if pts.length = 0 then { st with routePoints := pts, selectedSegments := [] }
  else if pts.length = 1 then
    let sel : List String :=
      match pts.head? with
      | some p => (match p.segmentName with | some s => [s] | none => [])
      | none => []
    { st with routePoints := pts, selectedSegments := sel }
  else
    { st with
      routePoints := pts
      selectedSegments := findOptimalRouteThroughPoints dist st.net pts }

/- ## Public mutating operations (`addPoint`, `recalculateRoute`) -/

/-- `addPoint`: throws on a JS-falsy coordinate (absent or zero — the
source tests `!point?.lat || !point?.lng`), silently returns the
current selection when snapping fails, and otherwise appends the
snapped waypoint (with the fresh id `Date.now() + Math.random()`,
modelled as the parameter `freshId`) and recomputes the selection. -/
def addPoint (dist : Point → Point → ℚ) (freshId : ℚ) (st : RMState)
    (p : RawPoint) : Except String (RMState × List String) :=
  match p.lat, p.lng with
  | some la, some ln =>
    if la = 0 ∨ ln = 0 then Except.error "Invalid point coordinates"
    else
      match snapToNearestSegment dist st.net.segments ⟨la, ln⟩ with
      | none => Except.ok (st, st.selectedSegments)
      | some pn =>
        let st1 := { st with routePoints :=
          st.routePoints ++ [⟨pn.1.lat, pn.1.lng, some freshId, some pn.2⟩] }
        let st2 := recalcInternal dist st1
        Except.ok (st2, st2.selectedSegments)
  | _, _ => Except.error "Invalid point coordinates"

/-- State extraction for a successful `addPoint` call. -/
def addPointSt (dist : Point → Point → ℚ) (freshId : ℚ) (st : RMState)
    (p : RawPoint) : RMState :=
  match addPoint dist freshId st p with
  | Except.ok r => r.1
  | Except.error _ => st

/-- Selection extraction for an `addPoint` result. -/
def addPointSelection (r : Except String (RMState × List String)) :
    Option (List String) :=
  match r with
  | Except.ok pr => some pr.2
  | Except.error _ => none

/-- `recalculateRoute` (the public one): re-snap every supplied point,
dropping only points with an `undefined` coordinate (note: `undefined`,
not falsy — zero is valid here), keeping the original point when
snapping fails, then rebuild the selection. -/
def recalculateRoute (dist : Point → Point → ℚ) (st : RMState)
    (points : List RawPoint) : RMState × List String :=
  let newPts : List Waypoint :=
    points.filterMap fun p =>
      match p.lat, p.lng with
      | some la, some ln =>
        match snapToNearestSegment dist st.net.segments ⟨la, ln⟩ with
        | some pn => some ⟨pn.1.lat, pn.1.lng, p.id, some pn.2⟩
        | none => some ⟨la, ln, p.id, p.segmentName⟩
      | _, _ => none
  let st1 := recalcInternal dist { st with routePoints := newPts }
  (st1, st1.selectedSegments)

/- ## Concrete test networks for the evaluations below -/

/-- One segment along latitude 2 from longitude 0 to 10 (under
`testDist`, 1000 m long). -/
def c1segs : List (String × Segment) :=
  [("A", ⟨"A", [⟨2, 0, 0⟩, ⟨2, 10, 0⟩]⟩)]

/-- Features for the disconnected two-segment network of the spec's
DegenerateFallback scenario: segment `A` spans longitudes 0–1 and
segment `C` spans 6–7, both at latitude 1, so the gap between the
facing endpoints is 500 m under `testDist`. -/
def featsAC : List Feature :=
  [⟨some "LineString", some "A", [(0, 1, none), (1, 1, none)]⟩,
   ⟨some "LineString", some "C", [(6, 1, none), (7, 1, none)]⟩]

/-- The loaded disconnected network. -/
def stAC : RMState := loadStateD testDist RMState.empty featsAC

/-- Features for two segments sharing the endpoint (lat 1, lng 1)
exactly, where `B`'s single edge is 200 m long. -/
def featsC7 : List Feature :=
  [⟨some "LineString", some "A", [(0, 1, none), (1, 1, none)]⟩,
   ⟨some "LineString", some "B", [(1, 1, none), (3, 1, none)]⟩]

/-- The loaded shared-endpoint network. -/
def stC7 : RMState := loadStateD testDist RMState.empty featsC7

/-- A raw click on segment `A` of `stAC`. -/
def rawOnA : RawPoint := ⟨some 1, some (1 / 2), none, none⟩

/-- A raw click on segment `C` of `stAC`. -/
def rawOnC : RawPoint := ⟨some 1, some (13 / 2), none, none⟩

/-- State after adding the click on `A`. -/
def stAC1 : RMState := addPointSt testDist 1 stAC rawOnA

/-- State after adding the click on `A` and then the click on `C`. -/
def stAC2 : RMState := addPointSt testDist 2 stAC1 rawOnC

/- ## Decidable equality for `Except` results -/

instance {ε α : Type} [DecidableEq ε] [DecidableEq α] : DecidableEq (Except ε α) := fun a b =>
  match a, b with
  | Except.error x, Except.error y =>
    if h : x = y then Decidable.isTrue (by rw [h]) else Decidable.isFalse (by simp [h])
  | Except.error _, Except.ok _ => Decidable.isFalse (by simp)
  | Except.ok _, Except.error _ => Decidable.isFalse (by simp)
  | Except.ok x, Except.ok y =>
    if h : x = y then Decidable.isTrue (by rw [h]) else Decidable.isFalse (by simp [h])

/- ## The snapping fold: invariant of `_snapToNearestSegment` -/

/-- Invariant of the candidate fold of `_snapToNearestSegment`: the
result is `none` exactly when nothing within the strict 100 m threshold
was seen, and a `some` result is a seen candidate of globally minimal
distance. -/
lemma snapFold_spec (cs : List SnapCand) : ∀ (acc : Option SnapCand),
    (∀ s, acc = some s → s.2.2 < 100) →
    ((cs.foldl snapStep acc = none ↔ acc = none ∧ ∀ c ∈ cs, 100 ≤ c.2.2) ∧
     (∀ r, cs.foldl snapStep acc = some r →
        r.2.2 < 100 ∧ (acc = some r ∨ r ∈ cs) ∧
        (∀ s, acc = some s → r.2.2 ≤ s.2.2) ∧ (∀ c ∈ cs, r.2.2 ≤ c.2.2))) := by
  induction cs with
  | nil =>
    intro acc hacc
    constructor
    · simp
    · intro r hr
      simp only [List.foldl_nil] at hr
      exact ⟨hacc r hr, Or.inl hr, fun s hs => by rw [hs] at hr; cases hr; exact le_refl _,
        by simp⟩
  | cons c cs ih =>
    intro acc hacc
    have hacc' : ∀ s, snapStep acc c = some s → s.2.2 < 100 := by
      intro s hs
      unfold snapStep at hs
      by_cases hcond : c.2.2 < 100 ∧ snapBetter acc c.2.2 = true
      · rw [if_pos hcond] at hs
        cases hs
        exact hcond.1
      · rw [if_neg hcond] at hs
        exact hacc s hs
    have IH := ih (snapStep acc c) hacc'
    constructor
    · rw [List.foldl_cons, IH.1]
      constructor
      · rintro ⟨h1, h2⟩
        by_cases hcond : c.2.2 < 100 ∧ snapBetter acc c.2.2 = true
        · exfalso
          unfold snapStep at h1
          rw [if_pos hcond] at h1
          exact Option.some_ne_none _ h1
        · unfold snapStep at h1
          rw [if_neg hcond] at h1
          refine ⟨h1, ?_⟩
          intro x hx
          rcases List.mem_cons.mp hx with rfl | hx'
          · by_contra hlt
            apply hcond
            refine ⟨lt_of_not_le hlt, ?_⟩
            rw [h1]
            rfl
          · exact h2 x hx'
      · rintro ⟨h1, h2⟩
        have hc := h2 c (List.mem_cons_self c cs)
        refine ⟨?_, fun x hx => h2 x (List.mem_cons_of_mem _ hx)⟩
        unfold snapStep
        rw [if_neg, h1]
        rintro ⟨hlt, _⟩
        exact absurd hc (not_le.mpr hlt)
    · intro r hr
      rw [List.foldl_cons] at hr
      obtain ⟨hlt, hor, hmin, hall⟩ := IH.2 r hr
      refine ⟨hlt, ?_, ?_, ?_⟩
      · rcases hor with h | h
        · unfold snapStep at h
          by_cases hcond : c.2.2 < 100 ∧ snapBetter acc c.2.2 = true
          · rw [if_pos hcond] at h
            cases h
            exact Or.inr (List.mem_cons_self _ _)
          · rw [if_neg hcond] at h
            exact Or.inl h
        · exact Or.inr (List.mem_cons_of_mem _ h)
      · intro s hs
        by_cases hcond : c.2.2 < 100 ∧ snapBetter acc c.2.2 = true
        · have h1 : snapStep acc c = some c := by unfold snapStep; rw [if_pos hcond]
          have h2 := hmin c h1
          have h3 : c.2.2 < s.2.2 := by
            have hb := hcond.2
            unfold snapBetter at hb
            rw [hs] at hb
            exact of_decide_eq_true hb
          exact le_trans h2 (le_of_lt h3)
        · have h1 : snapStep acc c = acc := by unfold snapStep; rw [if_neg hcond]
          exact hmin s (by rw [h1, hs])
      · intro x hx
        rcases List.mem_cons.mp hx with rfl | hx'
        · by_cases hcond : x.2.2 < 100 ∧ snapBetter acc x.2.2 = true
          · have h1 : snapStep acc x = some x := by unfold snapStep; rw [if_pos hcond]
            exact hmin x h1
          · by_cases hc100 : x.2.2 < 100
            · have hsb : ¬ snapBetter acc x.2.2 = true := fun h => hcond ⟨hc100, h⟩
              cases hAcc : acc with
              | none =>
                exfalso
                apply hsb
                rw [hAcc]
                rfl
              | some s =>
                have hnl : ¬ (x.2.2 < s.2.2) := by
                  intro hxs
                  apply hsb
                  rw [hAcc]
                  unfold snapBetter
                  exact decide_eq_true hxs
                have h1 : snapStep acc x = some s := by
                  unfold snapStep
                  rw [if_neg hcond, hAcc]
                have h2 := hmin s h1
                exact le_trans h2 (not_lt.mp hnl)
            · exact le_of_lt (lt_of_lt_of_le hlt (not_lt.mp hc100))
        · exact hall x hx'

/-- Claim C1 (amended): `findClosestSegment` returns `none` exactly when
every clamped-projection candidate lies at distance at least 100 m
(distances of exactly 100 m are rejected: the source compares with
`distance < threshold`, strictly); when it returns a name, that name
belongs to a candidate strictly within 100 m whose distance is globally
minimal over all candidates of all segments. -/
theorem c1_snap_strict_threshold (dist : Point → Point → ℚ)
    (segs : List (String × Segment)) (p : Point) :
    (findClosestSegment dist segs p = none ↔
      ∀ c ∈ snapCandidates dist segs p, 100 ≤ c.2.2) ∧
    (∀ n, findClosestSegment dist segs p = some n →
      ∃ c ∈ snapCandidates dist segs p, c.1 = n ∧ c.2.2 < 100 ∧
        ∀ c2 ∈ snapCandidates dist segs p, c.2.2 ≤ c2.2.2) := by
  have H := snapFold_spec (snapCandidates dist segs p) none (by intro s hs; cases hs)
  constructor
  · unfold findClosestSegment snapToNearestSegment
    rw [Option.map_eq_none', Option.map_eq_none']
    rw [H.1]
    simp
  · intro n hn
    unfold findClosestSegment snapToNearestSegment at hn
    rw [Option.map_map] at hn
    rcases Option.map_eq_some'.mp hn with ⟨r, hr, hrn⟩
    obtain ⟨hlt, hor, _, hall⟩ := H.2 r hr
    rcases hor with h | h
    · cases h
    · exact ⟨r, h, hrn, hlt, hall⟩

/-- Claim C1 counterexample: under `testDist` the point (3, 5) lies at
distance exactly 100 m from the single segment of `c1segs` (its only
candidate distance is 100), i.e. within 100 m inclusive, yet
`findClosestSegment` returns `none`. -/
theorem c1_counterexample :
    findClosestSegment testDist c1segs ⟨3, 5⟩ = none ∧
    (snapCandidates testDist c1segs ⟨3, 5⟩).map (fun c => c.2.2) = [100] := by
  with_unfolding_all decide

/-- Witness for C1: a point lying on the segment snaps to it with a
globally minimal candidate. -/
theorem c1_snap_strict_threshold_witness :
    ∃ c ∈ snapCandidates testDist c1segs ⟨2, 5⟩, c.1 = "A" ∧ c.2.2 < 100 ∧
      ∀ c2 ∈ snapCandidates testDist c1segs ⟨2, 5⟩, c.2.2 ≤ c2.2.2 :=
  (c1_snap_strict_threshold testDist c1segs ⟨2, 5⟩).2 "A" (by with_unfolding_all decide)

/- ## Claim C3: what `load` actually validates -/

/-- Claim C3 (amended): `load` fails with the InvalidInput error exactly
when the geojson data or its `features` array is missing; whenever a
features array is present it succeeds — even when it contains no valid
LineString at all, in which case the stores and graphs are simply
empty. -/
theorem c3_load_error_iff (dist : Point → Point → ℚ) (st : RMState)
    (geo : Option (List Feature)) :
    loadRM dist st geo = Except.error "Invalid geojson data" ↔ geo = none := by
  cases geo with
  | none => simp [loadRM]
  | some fs => simp [loadRM]

/-- A feature with a non-LineString geometry: no usable polyline. -/
def pointFeature : Feature := ⟨some "Point", some "P", [(0, 0, none)]⟩

/-- The state obtained by loading only the point feature. -/
def stNoLines : RMState := loadStateD testDist RMState.empty [pointFeature]

/-- Claim C3 counterexample: loading data that contains no LineString
at all succeeds (no InvalidInput error) and produces an empty segment
store, contradicting "fails iff no usable polyline". -/
theorem c3_counterexample :
    loadRM testDist RMState.empty (some [pointFeature]) = Except.ok stNoLines ∧
    stNoLines.net.segments = [] := by
  with_unfolding_all decide

/- ## Claim C4: the falsy-coordinate check of `addPoint` -/

/-- Claim C4 (code bug): the source guards `addPoint` with
`!point?.lat || !point?.lng`, which also rejects the perfectly valid
coordinate value 0 (JS falsiness).  The point (lat 0, lng 35) has both
coordinates, yet `addPoint` throws InvalidInput — while the validity
check used by `recalculateRoute` on the very same point
(`lat === undefined`) accepts it and stores it. -/
theorem c4_zero_coordinate_rejected :
    addPoint testDist 1 stAC ⟨some 0, some 35, none, none⟩ =
      Except.error "Invalid point coordinates" ∧
    (recalculateRoute testDist stAC [⟨some 0, some 35, none, none⟩]).1.routePoints =
      [⟨0, 35, none, none⟩] := by
  with_unfolding_all decide

/- ## Claim C5: which operations drop unsnappable waypoints -/

/-- Filtering with the constant-true predicate is the identity. -/
lemma filter_id_true {α : Type} (l : List α) : l.filter (fun _ => true) = l := by
  induction l with
  | nil => rfl
  | cons x xs ih => simp [List.filter, ih]

/-- `_recalculateRoute` never changes the stored waypoints. -/
lemma recalcInternal_routePoints (dist : Point → Point → ℚ) (s : RMState) :
    (recalcInternal dist s).routePoints = s.routePoints := by
  simp only [recalcInternal]
  split_ifs <;> simp [filter_id_true]

/-- `_recalculateRoute` never changes the loaded network. -/
lemma recalcInternal_net (dist : Point → Point → ℚ) (s : RMState) :
    (recalcInternal dist s).net = s.net := by
  simp only [recalcInternal]
  split_ifs <;> rfl

/-- Claim C5 (amended, `addPoint` part): a successful `addPoint` call
either leaves the stored waypoints untouched (snapping failed — the
unsnappable point is never stored) or appends exactly one waypoint
carrying the snapped coordinates and the snapped segment name.  The
other mutators do not share this property: see the counterexample,
where `recalculateRoute` retains an unsnappable waypoint. -/
theorem c5_addPoint_appends_only_snapped (dist : Point → Point → ℚ) (fid : ℚ)
    (st : RMState) (p : RawPoint) (st2 : RMState) (sel : List String)
    (h : addPoint dist fid st p = Except.ok (st2, sel)) :
    st2.routePoints = st.routePoints ∨
    ∃ la ln pt nm, p.lat = some la ∧ p.lng = some ln ∧
      snapToNearestSegment dist st.net.segments ⟨la, ln⟩ = some (pt, nm) ∧
      st2.routePoints = st.routePoints ++ [⟨pt.lat, pt.lng, some fid, some nm⟩] := by
  unfold addPoint at h
  cases hla : p.lat with
  | none => rw [hla] at h; cases h
  | some la =>
    cases hln : p.lng with
    | none => rw [hla, hln] at h; cases h
    | some ln =>
      rw [hla, hln] at h
      dsimp only at h
      by_cases h0 : la = 0 ∨ ln = 0
      · rw [if_pos h0] at h; cases h
      · rw [if_neg h0] at h
        cases hsnap : snapToNearestSegment dist st.net.segments ⟨la, ln⟩ with
        | none =>
          rw [hsnap] at h
          cases h
          exact Or.inl rfl
        | some pn =>
          rw [hsnap] at h
          cases h
          refine Or.inr ⟨la, ln, pn.1, pn.2, rfl, rfl, by rw [hsnap], ?_⟩
          rw [recalcInternal_routePoints]

/-- Claim C5 counterexample: `recalculateRoute` keeps a waypoint that
lies far beyond the 100 m snapping tolerance of every segment (its snap
result is `none`), instead of dropping it. -/
theorem c5_counterexample :
    (recalculateRoute testDist stAC [⟨some 2, some 100, some 7, none⟩]).1.routePoints =
      [⟨2, 100, some 7, none⟩] ∧
    snapToNearestSegment testDist stAC.net.segments ⟨2, 100⟩ = none := by
  with_unfolding_all decide

/-- The state produced by the witness call below. -/
def c5wSt : RMState := addPointSt testDist 5 stAC rawOnA

/-- The selection returned by the witness call below. -/
def c5wSel : List String :=
  match addPoint testDist 5 stAC rawOnA with
  | Except.ok r => r.2
  | Except.error _ => []

/-- Witness for C5: the amended theorem applied to a concrete
successful `addPoint` call. -/
theorem c5_addPoint_appends_only_snapped_witness :
    c5wSt.routePoints = stAC.routePoints ∨
    ∃ la ln pt nm, rawOnA.lat = some la ∧ rawOnA.lng = some ln ∧
      snapToNearestSegment testDist stAC.net.segments ⟨la, ln⟩ = some (pt, nm) ∧
      c5wSt.routePoints = stAC.routePoints ++ [⟨pt.lat, pt.lng, some 5, some nm⟩] :=
  c5_addPoint_appends_only_snapped testDist 5 stAC rawOnA c5wSt c5wSel
    (by with_unfolding_all decide)

/- ## Claim C2: continuity of incrementally built selections -/

/-- When every further waypoint stays on the segment already at the end
of the route, each extension step is the same-segment no-op. -/
lemma extendLoop_same_segment (dist : Point → Point → ℚ) (net : NetworkData)
    (s : String) : ∀ (pts : List Waypoint),
    (∀ p ∈ pts, p.segmentName = some s) →
    extendLoop dist net pts [s] = [s] := by
  intro pts
  induction pts with
  | nil => intro _; rfl
  | cons p rest ih =>
    intro h
    have hp := h p (List.mem_cons_self _ _)
    have hext : findRouteExtensionToPoint dist net p [s] = [] := by
      unfold findRouteExtensionToPoint
      rw [hp]
      simp
    unfold extendLoop
    rw [hext]
    simp only [List.append_nil]
    exact ih fun q hq => h q (List.mem_cons_of_mem _ hq)

/-- Claim C2 (amended): whenever all stored waypoints carry the same
snapped segment (every `addPoint` landed on one segment), the recomputed
selection is exactly that single segment and `checkSegmentsContinuity`
reports it continuous.  The original universal claim fails: on a
disconnected network the degenerate two-element fallback enters the
selection and the checker reports it broken (see the counterexample). -/
theorem c2_same_segment_continuous (dist : Point → Point → ℚ) (st : RMState)
    (s : String) (hne : st.routePoints ≠ [])
    (hall : ∀ p ∈ st.routePoints, p.segmentName = some s) :
    (recalcInternal dist st).selectedSegments = [s] ∧
    checkSegmentsContinuity dist (recalcInternal dist st).net [s] = ⟨true, -1⟩ := by
  constructor
  · simp only [recalcInternal, filter_id_true]
    cases hpts : st.routePoints with
    | nil => exact absurd hpts hne
    | cons p rest =>
      have hp : p.segmentName = some s := by
        apply hall
        rw [hpts]
        exact List.mem_cons_self _ _
      cases rest with
      | nil => simp [hp]
      | cons q rest' =>
        have hq : q.segmentName = some s := by
          apply hall
          rw [hpts]
          exact List.mem_cons_of_mem _ (List.mem_cons_self _ _)
        rw [if_neg (by simp), if_neg (by simp)]
        simp only [findOptimalRouteThroughPoints, hp]
        have hrest : ∀ r ∈ q :: rest', r.segmentName = some s := by
          intro r hr
          apply hall
          rw [hpts]
          exact List.mem_cons_of_mem _ hr
        exact extendLoop_same_segment dist st.net s (q :: rest') hrest
  · unfold checkSegmentsContinuity
    rw [if_pos (by simp)]

/-- Claim C2 counterexample: on the disconnected network `stAC`, adding
a waypoint on `A` and then one on `C` yields the selection
`["A", "C"]` through the degenerate fallback, and
`checkSegmentsContinuity` reports it broken at index 0 — refuting the
claim that every incrementally built selection is continuous. -/
theorem c2_counterexample :
    addPoint testDist 1 stAC rawOnA = Except.ok (stAC1, ["A"]) ∧
    addPoint testDist 2 stAC1 rawOnC = Except.ok (stAC2, ["A", "C"]) ∧
    checkSegmentsContinuity testDist stAC2.net stAC2.selectedSegments = ⟨false, 0⟩ := by
  with_unfolding_all decide

/-- A route state whose two waypoints both lie on segment `A`. -/
def c2wSt : RMState :=
  { net := stAC.net
    routePoints := [⟨1, 1 / 2, some 1, some "A"⟩, ⟨1, 3 / 4, some 2, some "A"⟩]
    selectedSegments := [] }

/-- Witness for C2: the amended theorem at a concrete two-waypoint
same-segment state. -/
theorem c2_same_segment_continuous_witness :
    (recalcInternal testDist c2wSt).selectedSegments = ["A"] ∧
    checkSegmentsContinuity testDist (recalcInternal testDist c2wSt).net ["A"] = ⟨true, -1⟩ :=
  c2_same_segment_continuous testDist c2wSt "A" (by with_unfolding_all decide)
    (by with_unfolding_all decide)

/- ## Claim C8: the 50 m dedup rule of the coordinate orderer -/

/-- Orienting a segment never changes its coordinate count. -/
lemma orientSegmentForConnection_length (dist : Point → Point → ℚ)
    (cs : List Coord) (nc : Option (List Coord)) (isF : Bool)
    (lp : Option Coord) :
    (orientSegmentForConnection dist cs nc isF lp).length = cs.length := by
  unfold orientSegmentForConnection
  cases isF <;> cases nc <;> cases lp <;> dsimp only <;> split_ifs <;>
    simp [List.length_reverse]

/-- Claim C8: appending one more segment to a nonempty running
sequence orients it against the sequence's last point; when the join
distance is within 50 m the oriented segment's first coordinate is
dropped (the result grows by the segment length minus one), and when
the join distance exceeds 50 m every coordinate is kept. -/
theorem c8_append_join_rule (dist : Point → Point → ℚ) (acc cs : List Coord)
    (l f : Coord) (hl : acc.getLast? = some l)
    (hf : (orientSegmentForConnection dist cs none false (some l)).head? = some f) :
    appendOrientedSegment dist acc cs =
      (if dist l.toPoint f.toPoint ≤ 50 then
        acc ++ (orientSegmentForConnection dist cs none false (some l)).drop 1
      else acc ++ orientSegmentForConnection dist cs none false (some l)) ∧
    (appendOrientedSegment dist acc cs).length =
      (if dist l.toPoint f.toPoint ≤ 50 then acc.length + cs.length - 1
      else acc.length + cs.length) := by
  have hcs : 0 < cs.length := by
    rw [← orientSegmentForConnection_length dist cs none false (some l)]
    cases horr : orientSegmentForConnection dist cs none false (some l) with
    | nil => rw [horr] at hf; cases hf
    | cons c cs' => simp
  simp only [appendOrientedSegment]
  rw [hl, hf]
  simp only [Option.map_some']
  unfold distOpt qinfLe
  dsimp only
  by_cases hd : dist l.toPoint f.toPoint ≤ 50
  · rw [if_pos hd, if_pos hd, if_pos (by rw [decide_eq_true hd])]
    refine ⟨rfl, ?_⟩
    rw [List.length_append, List.length_drop,
      orientSegmentForConnection_length]
    omega
  · rw [if_neg hd, if_neg hd, if_neg (by rw [decide_eq_false hd]; simp)]
    refine ⟨rfl, ?_⟩
    rw [List.length_append, orientSegmentForConnection_length]

/-- Witness for C8: a segment joined at distance 0 loses its duplicated
first coordinate. -/
theorem c8_append_join_rule_witness :
    appendOrientedSegment testDist [⟨1, 0, 0⟩, ⟨1, 1, 0⟩] [⟨1, 1, 0⟩, ⟨1, 2, 0⟩] =
      (if testDist (⟨1, 1, 0⟩ : Coord).toPoint (⟨1, 1, 0⟩ : Coord).toPoint ≤ 50 then
        [⟨1, 0, 0⟩, ⟨1, 1, 0⟩] ++
          (orientSegmentForConnection testDist [⟨1, 1, 0⟩, ⟨1, 2, 0⟩] none false
            (some ⟨1, 1, 0⟩)).drop 1
      else [⟨1, 0, 0⟩, ⟨1, 1, 0⟩] ++
        orientSegmentForConnection testDist [⟨1, 1, 0⟩, ⟨1, 2, 0⟩] none false
          (some ⟨1, 1, 0⟩)) ∧
    (appendOrientedSegment testDist [⟨1, 0, 0⟩, ⟨1, 1, 0⟩] [⟨1, 1, 0⟩, ⟨1, 2, 0⟩]).length =
      (if testDist (⟨1, 1, 0⟩ : Coord).toPoint (⟨1, 1, 0⟩ : Coord).toPoint ≤ 50 then
        ([⟨1, 0, 0⟩, ⟨1, 1, 0⟩] : List Coord).length + ([⟨1, 1, 0⟩, ⟨1, 2, 0⟩] : List Coord).length - 1
      else ([⟨1, 0, 0⟩, ⟨1, 1, 0⟩] : List Coord).length + ([⟨1, 1, 0⟩, ⟨1, 2, 0⟩] : List Coord).length) :=
  c8_append_join_rule testDist [⟨1, 0, 0⟩, ⟨1, 1, 0⟩] [⟨1, 1, 0⟩, ⟨1, 2, 0⟩] ⟨1, 1, 0⟩ ⟨1, 1, 0⟩
    (by with_unfolding_all decide) (by with_unfolding_all decide)

/- ## Claim C9: reverse metrics swap forward gain and loss -/

/-- Lookup after `Map.set`. -/
lemma alookup_aset {β : Type} (m : List (String × β)) (k : String) (v : β)
    (k2 : String) :
    alookup (aset m k v) k2 = if k2 = k then some v else alookup m k2 := by
  induction m with
  | nil =>
    show (if k = k2 then some v else none) = if k2 = k then some v else none
    by_cases h : k2 = k
    · rw [if_pos h, if_pos h.symm]
    · rw [if_neg h, if_neg fun hh => h hh.symm]
  | cons ab rest ih =>
    obtain ⟨a, b⟩ := ab
    show alookup (if a = k then (a, v) :: rest else (a, b) :: aset rest k v) k2 = _
    by_cases h : a = k
    · rw [if_pos h]
      show (if a = k2 then some v else alookup rest k2) = _
      by_cases h2 : a = k2
      · rw [if_pos h2, if_pos (h2.symm.trans h)]
      · rw [if_neg h2, if_neg fun hh : k2 = k => h2 (h.trans hh.symm)]
        show _ = if a = k2 then some b else alookup rest k2
        rw [if_neg h2]
    · rw [if_neg h]
      show (if a = k2 then some b else alookup (aset rest k v) k2) = _
      by_cases h2 : a = k2
      · rw [if_pos h2, if_neg fun hh : k2 = k => h (h2.trans hh)]
        show _ = if a = k2 then some b else alookup rest k2
        rw [if_pos h2]
      · rw [if_neg h2, ih]
        by_cases h3 : k2 = k
        · rw [if_pos h3, if_pos h3]
        · rw [if_neg h3, if_neg h3]
          show _ = if a = k2 then some b else alookup rest k2
          rw [if_neg h2]

/-- Every entry of the metrics fold comes from a loaded segment via
`computeSegmentMetrics`. -/
lemma buildMetrics_mem (dist : Point → Point → ℚ) :
    ∀ (segs : List (String × Segment)) (acc : List (String × Metrics))
      (n : String) (m : Metrics),
    alookup (segs.foldl (fun mm ns => aset mm ns.1 (computeSegmentMetrics dist ns.2)) acc) n =
      some m →
    alookup acc n = some m ∨
      ∃ sg, (n, sg) ∈ segs ∧ m = computeSegmentMetrics dist sg := by
  intro segs
  induction segs with
  | nil =>
    intro acc n m h
    exact Or.inl h
  | cons x rest ih =>
    intro acc n m h
    rw [List.foldl_cons] at h
    rcases ih (aset acc x.1 (computeSegmentMetrics dist x.2)) n m h with h2 | ⟨sg, hmem, hm⟩
    · rw [alookup_aset] at h2
      by_cases hx : n = x.1
      · rw [if_pos hx] at h2
        cases h2
        exact Or.inr ⟨x.2, by rw [hx]; exact List.mem_cons_self _ _, rfl⟩
      · rw [if_neg hx] at h2
        exact Or.inl h2
    · exact Or.inr ⟨sg, List.mem_cons_of_mem _ hmem, hm⟩

/-- Claim C9: for every loaded segment's metrics, the reverse-direction
elevation gain is exactly the forward loss and vice versa, where the
forward figures are the rounded sums of only those smoothed elevation
deltas with magnitude at least 1 m. -/
theorem c9_reverse_swaps_forward (dist : Point → Point → ℚ)
    (segs : List (String × Segment)) (n : String) (m : Metrics)
    (h : alookup (buildMetrics dist segs) n = some m) :
    m.reverse.elevationGain = m.forward.elevationLoss ∧
    m.reverse.elevationLoss = m.forward.elevationGain ∧
    ∃ sg, (n, sg) ∈ segs ∧
      m.forward.elevationGain =
        jsRound (elevGainLoss (smoothElevations dist sg.coordinates 100)).1 ∧
      m.forward.elevationLoss =
        jsRound (elevGainLoss (smoothElevations dist sg.coordinates 100)).2 := by
  unfold buildMetrics at h
  rcases buildMetrics_mem dist segs [] n m h with h2 | ⟨sg, hmem, hm⟩
  · cases h2
  · subst hm
    exact ⟨rfl, rfl, sg, hmem, rfl, rfl⟩

/-- The metrics of segment `A` in `c1segs`. -/
def mA : Metrics := (alookup (buildMetrics testDist c1segs) "A").getD default

/-- Witness for C9: the swap identity at the concrete metrics of
segment `A`. -/
theorem c9_reverse_swaps_forward_witness :
    mA.reverse.elevationGain = mA.forward.elevationLoss ∧
    mA.reverse.elevationLoss = mA.forward.elevationGain ∧
    ∃ sg, ("A", sg) ∈ c1segs ∧
      mA.forward.elevationGain =
        jsRound (elevGainLoss (smoothElevations testDist sg.coordinates 100)).1 ∧
      mA.forward.elevationLoss =
        jsRound (elevGainLoss (smoothElevations testDist sg.coordinates 100)).2 :=
  c9_reverse_swaps_forward testDist c1segs "A" mA (by with_unfolding_all decide)

/- ## Claim C10: the selection ignores waypoint ids -/

/-- The id-free view of a stored waypoint. -/
def stripWp (w : Waypoint) : ℚ × ℚ × Option String := (w.lat, w.lng, w.segmentName)

/-- `_findRouteExtensionToPoint` reads only the coordinates and the
segment name of the target waypoint, never its id. -/
lemma findRouteExtensionToPoint_strip (dist : Point → Point → ℚ)
    (net : NetworkData) (p q : Waypoint) (acc : List String)
    (h1 : p.lat = q.lat) (h2 : p.lng = q.lng) (h3 : p.segmentName = q.segmentName) :
    findRouteExtensionToPoint dist net p acc = findRouteExtensionToPoint dist net q acc := by
  unfold findRouteExtensionToPoint
  rw [h1, h2, h3]

/-- The extension loop depends only on the stripped waypoints. -/
lemma extendLoop_strip (dist : Point → Point → ℚ) (net : NetworkData) :
    ∀ (ps qs : List Waypoint) (acc : List String),
    ps.map stripWp = qs.map stripWp →
    extendLoop dist net ps acc = extendLoop dist net qs acc := by
  intro ps
  induction ps with
  | nil =>
    intro qs acc h
    cases qs with
    | nil => rfl
    | cons q qs2 => simp at h
  | cons p rest ih =>
    intro qs acc h
    cases qs with
    | nil => simp at h
    | cons q qs2 =>
      simp only [List.map_cons, List.cons.injEq] at h
      obtain ⟨hpq, hrest⟩ := h
      have h1 : p.lat = q.lat := congrArg (fun t => t.1) hpq
      have h2 : p.lng = q.lng := congrArg (fun t => t.2.1) hpq
      have h3 : p.segmentName = q.segmentName := congrArg (fun t => t.2.2) hpq
      unfold extendLoop
      rw [findRouteExtensionToPoint_strip dist net p q acc h1 h2 h3]
      exact ih qs2 _ hrest

/-- `_findOptimalRouteThroughPoints` depends only on the stripped
waypoints. -/
lemma findOptimalRouteThroughPoints_strip (dist : Point → Point → ℚ)
    (net : NetworkData) (ps qs : List Waypoint)
    (h : ps.map stripWp = qs.map stripWp) :
    findOptimalRouteThroughPoints dist net ps = findOptimalRouteThroughPoints dist net qs := by
  cases ps with
  | nil =>
    cases qs with
    | nil => rfl
    | cons q qs2 => simp at h
  | cons p rest =>
    cases qs with
    | nil => simp at h
    | cons q qs2 =>
      simp only [List.map_cons, List.cons.injEq] at h
      obtain ⟨hpq, hrest⟩ := h
      have h1 : p.lat = q.lat := congrArg (fun t => t.1) hpq
      have h2 : p.lng = q.lng := congrArg (fun t => t.2.1) hpq
      have h3 : p.segmentName = q.segmentName := congrArg (fun t => t.2.2) hpq
      cases rest with
      | nil =>
        cases qs2 with
        | nil =>
          simp only [findOptimalRouteThroughPoints]
          rw [h3]
        | cons r2 rest2 => simp at hrest
      | cons r rest1 =>
        cases qs2 with
        | nil => simp at hrest
        | cons r2 rest2 =>
          simp only [findOptimalRouteThroughPoints]
          rw [h3]
          exact extendLoop_strip dist net (r :: rest1) (r2 :: rest2) _ hrest

/-- The selection recomputed by `_recalculateRoute` depends only on the
network and the stripped waypoints. -/
lemma recalcInternal_selected_strip (dist : Point → Point → ℚ)
    (s1 s2 : RMState) (hnet : s1.net = s2.net)
    (hpts : s1.routePoints.map stripWp = s2.routePoints.map stripWp) :
    (recalcInternal dist s1).selectedSegments = (recalcInternal dist s2).selectedSegments := by
  have hlen : s1.routePoints.length = s2.routePoints.length := by
    have h2 := congrArg List.length hpts
    simpa using h2
  simp only [recalcInternal, filter_id_true]
  rw [hlen]
  by_cases hz : s2.routePoints.length = 0
  · rw [if_pos hz, if_pos hz]
  · rw [if_neg hz, if_neg hz]
    by_cases ho : s2.routePoints.length = 1
    · rw [if_pos ho, if_pos ho]
      cases hp1 : s1.routePoints with
      | nil => rw [hp1] at hlen; rw [← hlen] at ho; cases ho
      | cons p rest =>
        cases hp2 : s2.routePoints with
        | nil => rw [hp2] at hz; cases hz rfl
        | cons q rest2 =>
          rw [hp1, hp2] at hpts
          simp only [List.map_cons, List.cons.injEq] at hpts
          have h3 : p.segmentName = q.segmentName :=
            congrArg (fun t => t.2.2) hpts.1
          simp only [List.head?_cons, h3]
    · rw [if_neg ho, if_neg ho]
      simp only []
      rw [hnet]
      exact findOptimalRouteThroughPoints_strip dist s2.net _ _ hpts

/-- Claim C10: the selection returned by `addPoint` is independent of
the random waypoint id — two runs from the same state with the same
input point but different fresh ids return the same ordered segment
list. -/
theorem c10_selection_id_independent (dist : Point → Point → ℚ)
    (st : RMState) (p : RawPoint) (id1 id2 : ℚ) :
    addPointSelection (addPoint dist id1 st p) =
      addPointSelection (addPoint dist id2 st p) := by
  unfold addPoint
  cases hla : p.lat with
  | none => rfl
  | some la =>
    cases hln : p.lng with
    | none => rfl
    | some ln =>
      dsimp only
      by_cases h0 : la = 0 ∨ ln = 0
      · simp only [if_pos h0]
      · simp only [if_neg h0]
        cases hsnap : snapToNearestSegment dist st.net.segments ⟨la, ln⟩ with
        | none => rfl
        | some pn =>
          unfold addPointSelection
          dsimp only
          congr 1
          apply recalcInternal_selected_strip
          · rfl
          · simp [stripWp]

/- ## Claim C6: the disconnected two-element fallback -/

/-- One directed edge step in the endpoint graph. -/
def EdgeStep (g : List (Node × List Edge)) (n m : Node) : Prop :=
  ∃ e ∈ (nlookup g n).getD [], e.target = m

/-- Graph reachability: the reflexive-transitive closure of edge
steps. -/
def Reaches (g : List (Node × List Edge)) : Node → Node → Prop :=
  Relation.ReflTransGen (EdgeStep g)

/-- Lookup after a node-keyed `Map.set`. -/
lemma nlookup_nset {β : Type} (m : List (Node × β)) (k : Node) (v : β)
    (k2 : Node) :
    nlookup (nset m k v) k2 = if k2 = k then some v else nlookup m k2 := by
  induction m with
  | nil =>
    show (if k = k2 then some v else none) = if k2 = k then some v else none
    by_cases h : k2 = k
    · rw [if_pos h, if_pos h.symm]
    · rw [if_neg h, if_neg fun hh => h hh.symm]
  | cons ab rest ih =>
    obtain ⟨a, b⟩ := ab
    show nlookup (if a = k then (a, v) :: rest else (a, b) :: nset rest k v) k2 = _
    by_cases h : a = k
    · rw [if_pos h]
      show (if a = k2 then some v else nlookup rest k2) = _
      by_cases h2 : a = k2
      · rw [if_pos h2, if_pos (h2.symm.trans h)]
      · rw [if_neg h2, if_neg fun hh : k2 = k => h2 (h.trans hh.symm)]
        show _ = if a = k2 then some b else nlookup rest k2
        rw [if_neg h2]
    · rw [if_neg h]
      show (if a = k2 then some b else nlookup (nset rest k v) k2) = _
      by_cases h2 : a = k2
      · rw [if_pos h2, if_neg fun hh : k2 = k => h (h2.trans hh)]
        show _ = if a = k2 then some b else nlookup rest k2
        rw [if_pos h2]
      · rw [if_neg h2, ih]
        by_cases h3 : k2 = k
        · rw [if_pos h3, if_pos h3]
        · rw [if_neg h3, if_neg h3]
          show _ = if a = k2 then some b else nlookup rest k2
          rw [if_neg h2]

/-- The all-`Infinity` initial distance map stores no finite value. -/
lemma nlookup_map_none (nodes : List Node) (k : Node) (o : Option ℚ)
    (h : nlookup (nodes.map fun n => (n, (none : Option ℚ))) k = some o) :
    o = none := by
  induction nodes with
  | nil => cases h
  | cons n rest ih =>
    simp only [List.map_cons] at h
    unfold nlookup at h
    by_cases hn : n = k
    · rw [if_pos hn] at h
      cases h
      rfl
    · rw [if_neg hn] at h
      exact ih h

/-- A `qinfLt`-smaller value is finite. -/
lemma qinfLt_left_some (a b : Option ℚ) (h : qinfLt a b = true) :
    ∃ q, a = some q := by
  cases a with
  | some q => exact ⟨q, rfl⟩
  | none => simp [qinfLt] at h

/-- The node selected by `selectMinNode` has a finite tentative
distance. -/
lemma selectMinNode_finite (d : List (Node × Option ℚ)) (visited : List Node)
    (nodes : List Node) (u : Node) (h : selectMinNode d visited nodes = some u) :
    ∃ q : ℚ, nlookup d u = some (some q) := by
  unfold selectMinNode at h
  suffices hsuf : ∀ (ns : List Node) (init : Option Node × Option ℚ),
      (∀ n, init.1 = some n → ∃ q, dlookupD d n = some q) →
      ∀ n, (ns.foldl
        (fun best n =>
          if n ∉ visited ∧ qinfLt (dlookupD d n) best.2 = true then (some n, dlookupD d n)
          else best) init).1 = some n →
      ∃ q, dlookupD d n = some q by
    obtain ⟨q, hq⟩ := hsuf nodes (none, none) (by intro n hn; cases hn) u h
    unfold dlookupD at hq
    cases hnl : nlookup d u with
    | none => rw [hnl] at hq; cases hq
    | some o =>
      rw [hnl] at hq
      simp only [Option.getD_some] at hq
      exact ⟨q, by rw [hq]⟩
  intro ns
  induction ns with
  | nil =>
    intro init hinit n hn
    exact hinit n hn
  | cons m rest ih =>
    intro init hinit n hn
    rw [List.foldl_cons] at hn
    apply ih _ _ n hn
    intro n2 hn2
    by_cases hc : m ∉ visited ∧ qinfLt (dlookupD d m) init.2 = true
    · rw [if_pos hc] at hn2
      simp only [] at hn2
      cases hn2
      obtain ⟨q, hq⟩ := qinfLt_left_some _ _ hc.2
      exact ⟨q, hq⟩
    · rw [if_neg hc] at hn2
      exact hinit n2 hn2

/-- The Dijkstra loop invariant: every node with a finite tentative
distance, and every node with a predecessor, is reachable from the
source. -/
def DijInv (g : List (Node × List Edge)) (src : Node)
    (d : List (Node × Option ℚ)) (p : List (Node × Node)) : Prop :=
  (∀ n q, nlookup d n = some (some q) → Reaches g src n) ∧
  (∀ n m, nlookup p n = some m → Reaches g src n)

/-- Relaxing the edges of a reachable node preserves the invariant. -/
lemma relaxFold_inv (g : List (Node × List Edge)) (src u : Node)
    (hu : Reaches g src u) (du : Option ℚ) (visited : List Node) :
    ∀ (es : List Edge), (∀ e ∈ es, e ∈ (nlookup g u).getD []) →
    ∀ (dp : List (Node × Option ℚ) × List (Node × Node)),
    DijInv g src dp.1 dp.2 →
    DijInv g src (es.foldl (relaxStep u du visited) dp).1
      (es.foldl (relaxStep u du visited) dp).2 := by
  intro es
  induction es with
  | nil =>
    intro _ dp h
    exact h
  | cons e rest ih =>
    intro hmem dp h
    rw [List.foldl_cons]
    apply ih fun e2 he2 => hmem e2 (List.mem_cons_of_mem _ he2)
    unfold relaxStep
    by_cases hvis : e.target ∈ visited
    · rw [if_pos hvis]
      exact h
    · rw [if_neg hvis]
      by_cases himp : qinfLt (qinfAdd du (some e.weight)) (dlookupD dp.1 e.target) = true
      · rw [if_pos himp]
        have hstep : Reaches g src e.target :=
          Relation.ReflTransGen.tail hu ⟨e, hmem e (List.mem_cons_self _ _), rfl⟩
        constructor
        · intro n q hn
          simp only [] at hn
          rw [nlookup_nset] at hn
          by_cases hne : n = e.target
          · rw [hne]
            exact hstep
          · rw [if_neg hne] at hn
            exact h.1 n q hn
        · intro n m hn
          simp only [] at hn
          rw [nlookup_nset] at hn
          by_cases hne : n = e.target
          · rw [hne]
            exact hstep
          · rw [if_neg hne] at hn
            exact h.2 n m hn
      · rw [if_neg himp]
        exact h

/-- The whole Dijkstra loop preserves the invariant. -/
lemma dijkstraLoop_inv (g : List (Node × List Edge)) (nodes : List Node)
    (dst src : Node) :
    ∀ (fuel : ℕ) (d : List (Node × Option ℚ)) (p : List (Node × Node))
      (v : List Node),
    DijInv g src d p →
    DijInv g src (dijkstraLoop g nodes dst fuel d p v).1
      (dijkstraLoop g nodes dst fuel d p v).2 := by
  intro fuel
  induction fuel with
  | zero =>
    intro d p v h
    exact h
  | succ fuel ih =>
    intro d p v h
    unfold dijkstraLoop
    by_cases hv : v.length < nodes.length
    · rw [if_pos hv]
      cases hsel : selectMinNode d v nodes with
      | none => exact h
      | some u =>
        dsimp only
        by_cases hu : u = dst
        · rw [if_pos hu]
          exact h
        · rw [if_neg hu]
          have hreach : Reaches g src u := by
            obtain ⟨q, hq⟩ := selectMinNode_finite d v nodes u hsel
            exact h.1 u q hq
          exact ih _ _ _ (relaxFold_inv g src u hreach (dlookupD d u) v _
            (fun e he => he) (d, p) h)
    · rw [if_neg hv]
      exact h

/-- When the target is unreachable from the source, `_dijkstraPath`
returns the empty node path. -/
lemma dijkstraPath_unreachable (g : List (Node × List Edge)) (src dst : Node)
    (hne : src ≠ dst) (hnr : ¬ Reaches g src dst) :
    dijkstraPath g src dst = [] := by
  simp only [dijkstraPath]
  by_cases hmem : src ∉ (g.map fun nb => nb.1) ∨ dst ∉ (g.map fun nb => nb.1)
  · rw [if_pos hmem]
  · rw [if_neg hmem]
    have hinv0 : DijInv g src
        (nset (((g.map fun nb => nb.1)).map fun n => (n, (none : Option ℚ))) src (some 0))
        [] := by
      constructor
      · intro n q hn
        rw [nlookup_nset] at hn
        by_cases hns : n = src
        · rw [hns]
          exact Relation.ReflTransGen.refl
        · rw [if_neg hns] at hn
          exact absurd (nlookup_map_none _ n (some q) hn) (by simp)
      · intro n m hn
        cases hn
    have hfin := dijkstraLoop_inv g (g.map fun nb => nb.1) dst src
      (g.map fun nb => nb.1).length _ [] [] hinv0
    cases hdst : nlookup (dijkstraLoop g (g.map fun nb => nb.1) dst
        (g.map fun nb => nb.1).length
        (nset (((g.map fun nb => nb.1)).map fun n => (n, (none : Option ℚ))) src (some 0))
        [] []).2 dst with
    | none => simp [hne]
    | some m => exact absurd (hfin.2 dst m hdst) hnr

/-- Claim C6: when both points snap to distinct segments whose chosen
endpoint nodes (the endpoint of each segment nearer the respective
reference point) are disconnected in the endpoint graph,
`findPathBetweenPoints` returns exactly the degenerate two-element
fallback `[startSegment, endSegment]`. -/
theorem c6_disconnected_fallback (dist : Point → Point → ℚ)
    (net : NetworkData) (a b : Waypoint) (s t : String) (rp tp : Coord)
    (hs : findSegmentForPoint dist net a = some s)
    (ht : findSegmentForPoint dist net b = some t)
    (hne : s ≠ t)
    (hrp : getEndpointCoords net s
      (nearestEndpointKeyToPoint dist net s ⟨a.lat, a.lng⟩) = some rp)
    (htp : getEndpointCoords net t
      (nearestEndpointKeyToPoint dist net t ⟨b.lat, b.lng⟩) = some tp)
    (hnr : ¬ Reaches net.endpointGraph
      (chooseEndpointNode dist net s rp.toPoint)
      (chooseEndpointNode dist net t tp.toPoint)) :
    findPathBetweenPoints dist net a b = [s, t] := by
  unfold findPathBetweenPoints
  rw [hs, ht]
  dsimp only
  rw [if_neg hne, hrp, htp]
  simp only [Option.map_some']
  unfold findShortestSegmentPath
  rw [if_neg hne]
  dsimp only
  have hnodes : chooseEndpointNode dist net s rp.toPoint ≠
      chooseEndpointNode dist net t tp.toPoint := by
    intro h
    exact hne (congrArg Prod.fst h)
  rw [dijkstraPath_unreachable net.endpointGraph _ _ hnodes hnr]
  rw [if_pos rfl]

/-- In the disconnected network `stAC`, the endpoint graph keeps the
two nodes of segment `A` separate from those of segment `C`: every
node reachable from `A`'s start node still belongs to segment `A`. -/
lemma noReach_stAC : ¬ Reaches stAC.net.endpointGraph ("A", false) ("C", false) := by
  intro h
  have key : ∀ m : Node, Reaches stAC.net.endpointGraph ("A", false) m → m.1 = "A" := by
    intro m hm
    induction hm with
    | refl => rfl
    | tail hprev hstep ih =>
      obtain ⟨e, hmem, hec⟩ := hstep
      rename_i mid fin
      obtain ⟨mid1, mid2⟩ := mid
      have hmid : mid1 = "A" := ih
      subst hmid
      have hall : ∀ e2 ∈ (nlookup stAC.net.endpointGraph ("A", mid2)).getD [],
          e2.target.1 = "A" := by
        cases mid2 <;> with_unfolding_all decide
      rw [← hec]
      exact hall e hmem
  have hc := key _ h
  simp at hc

/-- Witness for C6: the two clicks of the DegenerateFallback scenario
on the disconnected network return exactly `["A", "C"]`. -/
theorem c6_disconnected_fallback_witness :
    findPathBetweenPoints testDist stAC.net ⟨1, 1 / 2, none, none⟩
      ⟨1, 13 / 2, none, none⟩ = ["A", "C"] :=
  c6_disconnected_fallback testDist stAC.net ⟨1, 1 / 2, none, none⟩
    ⟨1, 13 / 2, none, none⟩ "A" "C" ⟨1, 0, 0⟩ ⟨1, 6, 0⟩
    (by with_unfolding_all decide) (by with_unfolding_all decide)
    (by with_unfolding_all decide) (by with_unfolding_all decide)
    (by with_unfolding_all decide)
    (by
      have h1 : chooseEndpointNode testDist stAC.net "A" (Coord.toPoint ⟨1, 0, 0⟩) =
          ("A", false) := by with_unfolding_all decide
      have h2 : chooseEndpointNode testDist stAC.net "C" (Coord.toPoint ⟨1, 6, 0⟩) =
          ("C", false) := by with_unfolding_all decide
      rw [h1, h2]
      exact noReach_stAC)

/- ## Claim C7: what `checkSegmentsContinuity` actually measures -/

/-- `List.get?` at index zero is `head?`. -/
lemma coord_get?_zero (l : List Coord) : l.get? 0 = l.head? := by
  cases l <;> rfl

/-- Signed indexing just before the end of the first part of an
append. -/
lemma getCoordI_append_last (l1 l2 : List Coord) (h : l1 ≠ []) :
    getCoordI (l1 ++ l2) ((l1.length : ℤ) - 1) = l1.getLast? := by
  have hpos : 0 < l1.length := List.length_pos.mpr h
  unfold getCoordI
  rw [if_pos]
  · have htn : ((l1.length : ℤ) - 1).toNat = l1.length - 1 := by omega
    rw [htn, List.get?_append (by omega : l1.length - 1 < l1.length)]
    exact (List.getLast?_eq_get? l1).symm
  · constructor
    · omega
    · rw [List.length_append]
      push_cast
      omega

/-- Signed indexing at the start of the second part of an append. -/
lemma getCoordI_append_head (l1 l2 : List Coord) (h : l2 ≠ []) :
    getCoordI (l1 ++ l2) (l1.length : ℤ) = l2.head? := by
  have hpos : 0 < l2.length := List.length_pos.mpr h
  unfold getCoordI
  rw [if_pos]
  · have htn : ((l1.length : ℤ)).toNat = l1.length := by omega
    rw [htn, List.get?_append_right (le_refl _), Nat.sub_self, coord_get?_zero]
  · constructor
    · omega
    · rw [List.length_append]
      push_cast
      omega

/-- The junction walk on a two-segment list measures the distance from
the last coordinate of the stitched first part to the first coordinate
of the appended part — whatever coordinate ended up there. -/
lemma continuityLoop_pair_append (dist : Point → Point → ℚ)
    (segsMap : List (String × Segment)) (a b : String) (sa sb : Segment)
    (ha : alookup segsMap a = some sa) (hb : alookup segsMap b = some sb)
    (ap tail : List Coord) (hlen : ap.length = sa.coordinates.length)
    (hne : ap ≠ []) (l : Coord) (hl : ap.getLast? = some l)
    (y : Coord) (htail : tail.head? = some y) :
    continuityLoop dist segsMap (ap ++ tail) [a, b] 0 0 =
      (if 100 < dist l.toPoint y.toPoint then ⟨false, 0⟩ else ⟨true, -1⟩) := by
  have htne : tail ≠ [] := by
    intro hcontra
    rw [hcontra] at htail
    cases htail
  have htpos : 0 < tail.length := List.length_pos.mpr htne
  simp only [continuityLoop]
  rw [ha, hb]
  dsimp only
  rw [if_neg (by
    rw [List.length_append, ← hlen]
    push_cast
    omega)]
  have hidx : (0 : ℤ) + (sa.coordinates.length : ℤ) - 1 = (ap.length : ℤ) - 1 := by
    rw [hlen]
    ring
  rw [hidx, getCoordI_append_last ap tail hne, hl]
  have hidx2 : (ap.length : ℤ) - 1 + 1 = (ap.length : ℤ) := by ring
  rw [hidx2, getCoordI_append_head ap tail htne, htail]
  simp only [Option.map_some', distOpt]
  by_cases h100 : 100 < dist l.toPoint y.toPoint
  · rw [if_pos (by simp [qinfLt, h100]), if_pos h100]
  · rw [if_neg (by simp [qinfLt, h100]), if_neg h100]

/-- Claim C7 (amended): lists of at most one segment are always
continuous with index -1.  For a two-segment list `[a, b]` (both
present, the first with at least two coordinates, the oriented second
with at least two), the checker measures the distance from the oriented
first segment's last coordinate to the immediately following coordinate
of the stitched sequence — which is the oriented second segment's
second coordinate `bs` when the join distance is within 50 m (the
duplicate first vertex was dropped), and its first coordinate `bf`
otherwise — and reports broken at index 0 exactly when that measured
distance exceeds 100 m.  It is not the junction gap itself that is
compared against the tolerance. -/
theorem c7_pair_characterization (dist : Point → Point → ℚ)
    (net : NetworkData) (a b : String) (sa sb : Segment)
    (ha : alookup net.segments a = some sa)
    (hb : alookup net.segments b = some sb)
    (l bf bs : Coord) (brest : List Coord)
    (hl : (orientSegmentForConnection dist sa.coordinates
      (some sb.coordinates) true none).getLast? = some l)
    (hB : orientSegmentForConnection dist sb.coordinates none false (some l) =
      bf :: bs :: brest)
    (x : Coord) (hx : x = if dist l.toPoint bf.toPoint ≤ 50 then bs else bf) :
    (∀ segs : List String, segs.length ≤ 1 →
      checkSegmentsContinuity dist net segs = ⟨true, -1⟩) ∧
    checkSegmentsContinuity dist net [a, b] =
      (if 100 < dist l.toPoint x.toPoint then ⟨false, 0⟩ else ⟨true, -1⟩) := by
  constructor
  · intro segs hlen
    unfold checkSegmentsContinuity
    rw [if_pos hlen]
  · have hA'ne : orientSegmentForConnection dist sa.coordinates
        (some sb.coordinates) true none ≠ [] := by
      intro hcontra
      rw [hcontra] at hl
      cases hl
    have hA'len : (orientSegmentForConnection dist sa.coordinates
        (some sb.coordinates) true none).length = sa.coordinates.length :=
      orientSegmentForConnection_length dist sa.coordinates (some sb.coordinates) true none
    have hoc : getOrderedCoordinatesForSegments dist net.segments [a, b] =
        appendOrientedSegment dist
          (orientSegmentForConnection dist sa.coordinates (some sb.coordinates) true none)
          sb.coordinates := by
      simp only [getOrderedCoordinatesForSegments, ha, hb, List.foldl_cons, List.foldl_nil]
    have happ : appendOrientedSegment dist
        (orientSegmentForConnection dist sa.coordinates (some sb.coordinates) true none)
        sb.coordinates =
        (if qinfLe (some (dist l.toPoint bf.toPoint)) (some 50) = true
        then orientSegmentForConnection dist sa.coordinates (some sb.coordinates) true none
          ++ (bs :: brest)
        else orientSegmentForConnection dist sa.coordinates (some sb.coordinates) true none
          ++ (bf :: bs :: brest)) := by
      simp only [appendOrientedSegment]
      rw [hl, hB]
      simp only [Option.map_some', List.head?_cons, distOpt, List.drop_succ_cons,
        List.drop_zero]
    simp only [checkSegmentsContinuity]
    rw [if_neg (by simp)]
    rw [hoc, happ]
    by_cases hj : dist l.toPoint bf.toPoint ≤ 50
    · rw [if_pos (show qinfLe (some (dist l.toPoint bf.toPoint)) (some 50) = true from by
        unfold qinfLe; exact decide_eq_true hj)]
      rw [if_neg (show ¬ (orientSegmentForConnection dist sa.coordinates (some sb.coordinates)
          true none ++ bs :: brest).length = 0 from by simp)]
      rw [continuityLoop_pair_append dist net.segments a b sa sb ha hb _ _ hA'len hA'ne l hl
        bs (by simp)]
      rw [hx, if_pos hj]
    · rw [if_neg (show ¬ qinfLe (some (dist l.toPoint bf.toPoint)) (some 50) = true from by
        unfold qinfLe; simp [hj])]
      rw [if_neg (show ¬ (orientSegmentForConnection dist sa.coordinates (some sb.coordinates)
          true none ++ bf :: bs :: brest).length = 0 from by simp)]
      rw [continuityLoop_pair_append dist net.segments a b sa sb ha hb _ _ hA'len hA'ne l hl
        bf (by simp)]
      rw [hx, if_neg hj]

/-- Claim C7 counterexample: in `stC7` segments `A` and `B` share the
endpoint (lat 1, lng 1) exactly — the junction gap is 0 m, well within
the 100 m tolerance — yet `checkSegmentsContinuity` reports the pair
broken at index 0, because after deduplication it measures the 200 m
distance to `B`'s second coordinate instead. -/
theorem c7_counterexample :
    checkSegmentsContinuity testDist stC7.net ["A", "B"] = ⟨false, 0⟩ ∧
    getEndpointCoords stC7.net "A" true = some ⟨1, 1, 0⟩ ∧
    getEndpointCoords stC7.net "B" false = some ⟨1, 1, 0⟩ ∧
    testDist (Coord.toPoint ⟨1, 1, 0⟩) (Coord.toPoint ⟨1, 1, 0⟩) = 0 := by
  with_unfolding_all decide

/-- Witness for C7: the characterization instantiated on `stC7`,
where the join is deduplicated and the measured distance is the 200 m
to `B`'s second coordinate. -/
theorem c7_pair_characterization_witness :
    (∀ segs : List String, segs.length ≤ 1 →
      checkSegmentsContinuity testDist stC7.net segs = ⟨true, -1⟩) ∧
    checkSegmentsContinuity testDist stC7.net ["A", "B"] =
      (if 100 < testDist (Coord.toPoint ⟨1, 1, 0⟩) (Coord.toPoint ⟨1, 3, 0⟩)
      then ⟨false, 0⟩ else ⟨true, -1⟩) :=
  c7_pair_characterization testDist stC7.net "A" "B"
    ⟨"A", [⟨1, 0, 0⟩, ⟨1, 1, 0⟩]⟩ ⟨"B", [⟨1, 1, 0⟩, ⟨1, 3, 0⟩]⟩
    (by with_unfolding_all decide) (by with_unfolding_all decide)
    ⟨1, 1, 0⟩ ⟨1, 1, 0⟩ ⟨1, 3, 0⟩ []
    (by with_unfolding_all decide) (by with_unfolding_all decide)
    ⟨1, 3, 0⟩ (by with_unfolding_all decide)
